import Mathlib

/-!
Verification of the comses/citation merge/dedupe/audit core against its
specification.  The definitions below are shallow embeddings of the Python
source in `citation/models.py` and `citation/merger/experimental.py`:
rows are records of serialized field values, the database is a list of rows,
and every fallible operation returns `Except String`.
-/

set_option maxRecDepth 4000

/-! ## Audit layer: AuditCommand / AuditLog state

`AuditCommand.save_once` (models.py:1140) persists the command only on first
call; we track that with a Boolean.  An `AuditLog` row records the action
kind, target row id and table; payload bodies (the `data`/`labels` JSON) are
carried as the serialized diff that gates whether the row is written at all,
which is the behaviour the claims are about. -/

/-- An UPDATE audit payload: for each changed column, (name, old, new)
serialized values, per make_versioned_payload (models.py:75). -/
abbrev DiffData := List (String × String × String)

inductive AuditPayload where
  | snapshot (data : List (String × String))
  | diff (data : DiffData)
  deriving Repr, DecidableEq

structure AuditEntry where
  action : String
  rowId : Nat
  table : String
  payload : AuditPayload
  deriving Repr, DecidableEq

/-- The persistence state of one AuditCommand together with its AuditLog rows.
`commandSaved` is whether the AuditCommand row itself has been written
(save_once semantics, models.py:1140). -/
structure AuditState where
  commandSaved : Bool
  logs : List AuditEntry
  deriving Repr, DecidableEq

/-- A generic logged entity row: id plus serialized field values keyed by
column name (the shape make_payload / make_versioned_payload compare on). -/
structure Row where
  id : Nat
  fields : List (String × String)
  deriving Repr, DecidableEq

def lookupField (fs : List (String × String)) (k : String) : Option String :=
  (fs.find? (fun p => p.1 == k)).map (·.2)

def setField (fs : List (String × String)) (k v : String) : List (String × String) :=
  if fs.any (fun p => p.1 == k) then
    fs.map (fun p => if p.1 == k then (k, v) else p)
  else fs ++ [(k, v)]

/-- Diff loop of make_versioned_payload (models.py:79-90): for each requested
change, look the column up (`_meta.get_field` raises on an unknown column —
modelled by `Except.error`), serialize old and new, and keep the columns whose
serialized values differ, in iteration order. -/
def diffChanges (fields : List (String × String)) :
    List (String × String) → Except String DiffData
  | [] => .ok []
  | cv :: rest =>
    match lookupField fields cv.1 with
    | none => .error ("FieldDoesNotExist: " ++ cv.1)
    | some oldV =>
      match diffChanges fields rest with
      | .error e => .error e
      | .ok d => .ok (if cv.2 ≠ oldV then (cv.1, oldV, cv.2) :: d else d)

/-- Embeds make_versioned_payload (models.py:75-99).  The source returns `None`
when nothing changed (its `labels` dict is only ever populated when `data` is
nonempty), so the result is `none` exactly when the diff set is empty. -/
def makeVersionedPayload (r : Row) (changes : List (String × String)) :
    Except String (Option DiffData) :=
  match diffChanges r.fields changes with
  | .error e => .error e
  | .ok d => .ok (if d.isEmpty then none else some d)

/-- Embeds applying `setattr(self, column, kwargs[column])` for every column of
a change set (models.py:230-232) or a queryset-wide `update(**kwargs)`
(models.py:192). -/
def applyChanges (r : Row) (changes : List (String × String)) : Row :=
  { r with fields := changes.foldl (fun fs cv => setField fs cv.1 cv.2) r.fields }

/-- Embeds make_payload (models.py:57-72): INSERT/DELETE snapshot of every
concrete field.  (The human-readable `labels` are elided: they never affect
whether a row is written.) -/
def makePayload (r : Row) : AuditPayload := .snapshot r.fields

/-- Embeds AbstractLogModel.log_update (models.py:218-233), the single-entity
versioned update: compute the payload first; only when it is non-None persist
the AuditCommand (save_once), write one UPDATE AuditLog row, and apply the
field assignments. -/
def logUpdate (st : AuditState) (table : String) (r : Row)
    (changes : List (String × String)) : Except String (AuditState × Row) :=
  match makeVersionedPayload r changes with
  | .error e => .error e
  | .ok none => .ok (st, r)
  | .ok (some d) =>
      .ok ({ commandSaved := true,
             logs := st.logs ++ [⟨"UPDATE", r.id, table, .diff d⟩] },
           applyChanges r changes)

/-- Embeds LogQuerySet.log_update (models.py:173-192), the batch versioned
update: the source calls `audit_command.save_once()` before diffing any row,
then writes an UPDATE AuditLog row per instance whose payload is non-None, and
finally issues `instances.update(**kwargs)` over the whole queryset. -/
def qsCollectLogs (table : String) (changes : List (String × String)) :
    List Row → Except String (List AuditEntry)
  | [] => .ok []
  | r :: rest =>
    match makeVersionedPayload r changes with
    | .error e => .error e
    | .ok none => qsCollectLogs table changes rest
    | .ok (some d) =>
      match qsCollectLogs table changes rest with
      | .error e => .error e
      | .ok l => .ok (⟨"UPDATE", r.id, table, .diff d⟩ :: l)

def qsLogUpdate (st : AuditState) (table : String) (rows : List Row)
    (changes : List (String × String)) : Except String (AuditState × List Row) :=
  match qsCollectLogs table changes rows with
  | .error e => .error e
  | .ok newLogs =>
    .ok ({ commandSaved := true, logs := st.logs ++ newLogs },
         rows.map (applyChanges · changes))

/-- Embeds LogManager.log_get_or_create (models.py:117-146).  Look up a row
matching the lookup keys; when absent, create it from keys plus defaults and
write an INSERT log.  When present, the source merges `defaults.update(kwargs)`
into a dict it never uses again, computes the UPDATE payload from `kwargs`
(the lookup keys) alone, writes an UPDATE log only when that payload is
non-None, and never assigns or saves any field of the matched instance.
Returns (state, db, instance, created). -/
def rowMatchesKeys (keys : List (String × String)) (r : Row) : Bool :=
  keys.all (fun kv => lookupField r.fields kv.1 == some kv.2)

def logGetOrCreate (st : AuditState) (table : String) (db : List Row)
    (nextId : Nat) (keys defaults : List (String × String)) :
    Except String (AuditState × List Row × Row × Bool) :=
  match db.find? (rowMatchesKeys keys) with
  | some inst =>
      match makeVersionedPayload inst keys with
      | .error e => .error e
      | .ok none => .ok (st, db, inst, false)
      | .ok (some d) =>
          .ok ({ commandSaved := true,
                 logs := st.logs ++ [⟨"UPDATE", inst.id, table, .diff d⟩] },
               db, inst, false)
  | none =>
      let inst : Row :=
        ⟨nextId, (keys ++ defaults).foldl (fun fs cv => setField fs cv.1 cv.2) []⟩
      .ok ({ commandSaved := true,
             logs := st.logs ++ [⟨"INSERT", nextId, table, makePayload inst⟩] },
           db ++ [inst], inst, true)

/-! ## Entity data model for the merge engine

Author (models.py:250), PublicationAuthors (models.py:1253),
PublicationTags (models.py:1320), Container (models.py:570).
`orcid` uses a NonEmptyTextField, which stores blank values as NULL, so it is
an `Option String`; email is a plain blank-able CharField. -/

structure AuthorRec where
  id : Nat
  givenName : String
  familyName : String
  orcid : Option String
  email : String
  deriving Repr, DecidableEq

structure PubAuthor where
  id : Nat
  publicationId : Nat
  authorId : Nat
  deriving Repr, DecidableEq

structure PublicationTag where
  id : Nat
  publicationId : Nat
  tagId : Nat
  deriving Repr, DecidableEq

structure ContainerRec where
  id : Nat
  issn : Option String
  eissn : Option String
  name : String
  deriving Repr, DecidableEq

/-- Embeds Container.duplicates (models.py:592-597) literally: the second
disjunct of the source's query is `Q(eissn=self.issn) & Q(eissn__isnull=False)`
— it compares the other container's e-ISSN against this container's ISSN.
`Q(f=None)` is an `IS NULL` test, matching Option equality. -/
def containerDuplicates (c : ContainerRec) (db : List ContainerRec) : List ContainerRec :=
  db.filter (fun d =>
    ((d.issn == c.issn && d.issn.isSome) ||
     (d.eissn == c.issn && d.eissn.isSome) ||
     (d.name == c.name && d.name != "")) &&
    d.id != c.id)

/-- The duplicate rule as the spec states it (spec section 4.2): ISSN matches
(both non-empty), or e-ISSN matches (both non-empty), or exact non-empty name
matches; never the record itself. -/
def specContainerIsDuplicate (c d : ContainerRec) : Prop :=
  d.id ≠ c.id ∧
    ((∃ v, c.issn = some v ∧ d.issn = some v) ∨
     (∃ v, c.eissn = some v ∧ d.eissn = some v) ∨
     (c.name ≠ "" ∧ d.name = c.name))

/-! ## SuggestedMerge and the Author merge executor (models.py:1384-1588)

The coalescer's `new_content` patch only ever carries the four author fields
below (experimental.py:172-178), so the JSON patch is embedded as a record of
optional fields: a field is `some v` exactly when the key is present. -/

structure AuthorChanges where
  familyName : Option String := none
  givenName : Option String := none
  orcid : Option String := none
  email : Option String := none
  deriving Repr, DecidableEq

structure SuggestedMergeRec where
  duplicates : List Nat
  newContent : AuthorChanges
  dateApplied : Option Nat := none
  deriving Repr, DecidableEq

/-- kept_pk (models.py:1416-1418) is `duplicates[0]`; `none` when the list is
empty (where the source would raise IndexError). -/
def SuggestedMergeRec.keptPk (sm : SuggestedMergeRec) : Option Nat :=
  sm.duplicates.head?

/-- Applying a log_update(**content) patch to an author: setattr per present
field (models.py:230-231).  The source skips the whole assignment when the
versioned payload is empty, but assigning values equal to the current ones is
the identity, so the final field values agree. -/
def applyAuthorChanges (a : AuthorRec) (ch : AuthorChanges) : AuthorRec :=
  { a with
    familyName := ch.familyName.getD a.familyName,
    givenName := ch.givenName.getD a.givenName,
    email := ch.email.getD a.email,
    orcid := match ch.orcid with | some v => some v | none => a.orcid }

/-- The collision test of SuggestedMerge._move_publication_authors
(models.py:1463-1467) applied to one association row: delete (`none`) when the
kept author already has a row for the same publication, otherwise re-point the
row at the kept author. -/
def paMoveFun (kept : Nat) (discarded : List Nat) (keptPubs : List Nat)
    (r : PubAuthor) : Option PubAuthor :=
  if r.authorId ∈ discarded then
    if r.publicationId ∈ keptPubs then none
    else some { r with authorId := kept }
  else some r

/-- The `kept_publication_ids` snapshot of _move_publication_authors
(models.py:1461): publication ids of the kept author's association rows,
taken before any row is moved. -/
def keptPublicationIds (kept : Nat) (rows : List PubAuthor) : List Nat :=
  (rows.filter (fun x => x.authorId == kept)).map (·.publicationId)

/-- Embeds SuggestedMerge._move_publication_authors (models.py:1459-1467):
`kept_publication_ids` is snapshotted before the loop, then every row of a
discarded author is logged-deleted on collision or logged-updated to the kept
author. -/
def movePublicationAuthors (kept : Nat) (discarded : List Nat)
    (rows : List PubAuthor) : List PubAuthor :=
  rows.filterMap (paMoveFun kept discarded (keptPublicationIds kept rows))

/-- The database slice an Author merge touches (AuthorAlias and RawAuthors
rows are moved by the analogous _move_author_aliases/_move_raw_authors and are
not tracked here). -/
structure AuthorDB where
  authors : List AuthorRec
  pubAuthors : List PubAuthor
  deriving Repr, DecidableEq

/-- Embeds SuggestedMerge.merge_authors (models.py:1469-1478): kept pk is
`min(pks)`, discarded pks are the rest (`copy.deepcopy` + `remove` drops the
first occurrence of the minimum); move association rows, delete the discarded
authors, then log_update the kept author with the content patch
(`Author.objects.get` raises DoesNotExist when the kept id is absent;
`min` raises ValueError on an empty list). -/
def mergeAuthorsDb (pks : List Nat) (content : AuthorChanges) (db : AuthorDB) :
    Except String AuthorDB :=
  match pks.min? with
  | none => .error "ValueError: min() arg is an empty sequence"
  | some kept =>
    let discarded := pks.erase kept
    let pas := movePublicationAuthors kept discarded db.pubAuthors
    let authors1 := db.authors.filter (fun a => !(a.id ∈ discarded : Bool))
    match authors1.find? (fun a => a.id == kept) with
    | none => .error "Author.DoesNotExist"
    | some _ =>
      .ok { authors := authors1.map (fun a => if a.id = kept then applyAuthorChanges a content else a),
            pubAuthors := pas }

/-- Embeds SuggestedMerge.merge (models.py:1562-1573) for the Author content
type: `assert self.date_applied is None` and `assert len(self.duplicates) > 1`
run before the transaction is opened and before any write; on success the
dispatch runs and `date_applied` is set in the same transaction (the timestamp
value itself is opaque here, recorded as 0). -/
def suggestedMergeRun (sm : SuggestedMergeRec) (db : AuthorDB) :
    Except String (AuthorDB × SuggestedMergeRec) :=
  if sm.dateApplied.isSome then
    .error "AssertionError: self.date_applied is None"
  else if sm.duplicates.length ≤ 1 then
    .error "AssertionError: len(self.duplicates) > 1"
  else
    match mergeAuthorsDb sm.duplicates sm.newContent db with
    | .error e => .error e
    | .ok db2 => .ok (db2, { sm with dateApplied := some 0 })

/-! ## The Tag association move (models.py:1539-1549)

PublicationTags has concrete fields id, publication, tag, date_added,
date_modified — there is no sponsor field, yet the update branch of
_move_publication_tags calls `log_update(audit_command, sponsor_id=kept_pk)`. -/

/-- Column names `_meta.get_field` resolves on PublicationTags: each concrete
field by name and, for the foreign keys, the `_id` attname as well. -/
def ptFieldNames : List String :=
  ["id", "publication", "publication_id", "tag", "tag_id", "date_added", "date_modified"]

/-- log_update of a single named column on a PublicationTags row
(AbstractLogModel.log_update, models.py:218-233): make_versioned_payload
resolves the column via `_meta.get_field`, which raises FieldDoesNotExist for
a column the model does not have. -/
def ptLogUpdateField (pt : PublicationTag) (col : String) (v : Nat) :
    Except String PublicationTag :=
  if col ∈ ptFieldNames then
    .ok (if col = "tag_id" then { pt with tagId := v }
         else if col = "publication_id" then { pt with publicationId := v }
         else pt)
  else .error ("FieldDoesNotExist: PublicationTags has no field named " ++ col)

def movePTGo (keptPk : Nat) (keptPubIds discardedPks : List Nat) :
    List PublicationTag → Except String (List PublicationTag)
  | [] => .ok []
  | pt :: rest =>
    if pt.tagId ∈ discardedPks then
      if pt.publicationId ∈ keptPubIds then
        movePTGo keptPk keptPubIds discardedPks rest
      else
        match ptLogUpdateField pt "sponsor_id" keptPk with
        | .error e => .error e
        | .ok pt2 =>
          match movePTGo keptPk keptPubIds discardedPks rest with
          | .error e => .error e
          | .ok rest2 => .ok (pt2 :: rest2)
    else
      match movePTGo keptPk keptPubIds discardedPks rest with
      | .error e => .error e
      | .ok rest2 => .ok (pt :: rest2)

/-- Embeds SuggestedMerge._move_publication_tags (models.py:1539-1549):
snapshot the kept tag's publication ids, then logged-delete colliding rows of
discarded tags and otherwise `log_update(audit_command, sponsor_id=kept_pk)` —
the source passes sponsor_id, not tag_id, for a PublicationTags row. -/
def movePublicationTags (keptPk : Nat) (discardedPks : List Nat)
    (db : List PublicationTag) : Except String (List PublicationTag) :=
  let keptPubIds := (db.filter (fun pt => pt.tagId == keptPk)).map (·.publicationId)
  movePTGo keptPk keptPubIds discardedPks db

/-! ## The automatic author coalescer (experimental.py:133-178) -/

/-- Embeds AutomaticAuthorCoalescer._max_str_len_agg (experimental.py:143-148):
start from the `empty` sentinel (length 0) and take each strictly longer value;
`none` plays the role of `empty`. -/
def maxStrLenAgg (vals : List String) : Option String :=
  vals.foldl (fun acc s => if (acc.getD "").length < s.length then some s else acc) none

/-- Embeds AutomaticAuthorCoalescer.orcid (experimental.py:156-160): collect
the distinct non-None orcids; more than one distinct value raises MergeError,
otherwise the unique value if any. -/
def orcidAgg (authors : List AuthorRec) : Except String (Option String) :=
  let orcids := (authors.filterMap (·.orcid)).dedup
  if orcids.length > 1 then .error "MergeError: More than ORCiD in a merge group"
  else .ok orcids.head?

/-- Embeds AutomaticAuthorCoalescer.email (experimental.py:162-170):
`authors[0]` raises IndexError on an empty group; when the first author's
email is blank, the loop leaves the email of the last author in the rest of
the list that has a non-blank one. -/
def emailAgg : List AuthorRec → Except String (Option String)
  | [] => .error "IndexError: list index out of range"
  | first :: rest =>
    .ok (if first.email ≠ "" then none
         else rest.foldl (fun acc a => if a.email ≠ "" then some a.email else acc) none)

/-- Embeds AutomaticAuthorCoalescer.calculate_changes (experimental.py:172-178)
over the attribute order family_name, given_name, orcid, email; a key is in
the changes dict exactly when the aggregated value is not the `empty`
sentinel. -/
def calculateChanges (authors : List AuthorRec) : Except String AuthorChanges :=
  let fn := maxStrLenAgg (authors.map (·.familyName))
  let gn := maxStrLenAgg (authors.map (·.givenName))
  match orcidAgg authors with
  | .error e => .error e
  | .ok oc =>
    match emailAgg authors with
    | .error e => .error e
    | .ok em => .ok ⟨fn, gn, oc, em⟩

/-- Embeds AutomaticAuthorCoalescer.coalesce (experimental.py:138-141): the
SuggestedMerge is built with `duplicates=sorted([a.pk for a in authors])`.
(`insertionSort` is a stable ascending sort, as Python's `sorted` is.) -/
def coalesce (authors : List AuthorRec) : Except String SuggestedMergeRec :=
  match calculateChanges authors with
  | .error e => .error e
  | .ok ch =>
    .ok { duplicates := List.insertionSort (· ≤ ·) (authors.map (·.id)),
          newContent := ch, dateApplied := none }

/-! ## The disjoint-set merge grouper (experimental.py:22-101)

Python dicts are embedded as association lists with last-position insert for
new keys and in-place overwrite for existing ones; `dict.pop` removes the key. -/

def assocLookup (m : List (Nat × α)) (k : Nat) : Option α :=
  (m.find? (fun p => p.1 == k)).map (·.2)

def assocErase (m : List (Nat × α)) (k : Nat) : List (Nat × α) :=
  m.filter (fun p => p.1 != k)

def assocSet (m : List (Nat × α)) (k : Nat) (v : α) : List (Nat × α) :=
  if m.any (fun p => p.1 == k) then
    m.map (fun p => if p.1 == k then (k, v) else p)
  else m ++ [(k, v)]

def zipLongest : List Nat → List Nat → List (Option Nat × Option Nat)
  | [], ys => ys.map (fun y => (none, some y))
  | x :: xs, [] => (some x, none) :: zipLongest xs []
  | x :: xs, y :: ys => (some x, some y) :: zipLongest xs ys

def pushNew (acc : List Nat) : Option Nat → List Nat
  | none => acc
  | some v => if v ∈ acc then acc else acc ++ [v]

/-- Embeds MergeList.update (experimental.py:34-45): interleave the two item
lists pairwise (itertools.zip_longest), appending each element not seen yet. -/
def mergeListUpdate (xs ys : List Nat) : List Nat :=
  (zipLongest xs ys).foldl (fun acc p => pushNew (pushNew acc p.1) p.2) []

/-- State of DisjointUnionList (experimental.py:54-65): the running group
counter, the group_id -> MergeList items map, and the pk -> group_id map. -/
structure DUL where
  groupId : Nat
  groups : List (Nat × List Nat)
  pkMap : List (Nat × Nat)
  deriving Repr, DecidableEq

def dulEmpty : DUL := ⟨0, [], []⟩

/-- The per-pk loop of DisjointUnionList.add (experimental.py:75-81), iterating
over a copy of the incoming group's items: a pk already mapped pops its old
group id from pk_to_group_id and pops that group from group_id_to_pks — a
KeyError (modelled as `Except.error`) if the group id is no longer a key —
then unions the popped items into the current group (the stored entry under
the new group id aliases the mutated MergeList, so it is re-stored), and
finally maps the pk to the new group id. -/
def dulAddGo (gid : Nat) : List Nat → List (Nat × List Nat) → List (Nat × Nat) →
    List Nat → Except String (List (Nat × List Nat) × List (Nat × Nat))
  | [], groups, pkMap, _cur => .ok (groups, pkMap)
  | pk :: rest, groups, pkMap, cur =>
    match assocLookup pkMap pk with
    | none => dulAddGo gid rest groups (assocSet pkMap pk gid) cur
    | some oldGid =>
      let pkMap1 := assocErase pkMap pk
      match assocLookup groups oldGid with
      | none => .error "KeyError"
      | some eg =>
        let cur1 := mergeListUpdate cur eg
        let groups1 := assocSet (assocErase groups oldGid) gid cur1
        dulAddGo gid rest groups1 (assocSet pkMap1 pk gid) cur1

/-- Embeds DisjointUnionList.add (experimental.py:73-83): store the new group
under the next group id, run the per-pk loop, then advance the counter. -/
def dulAdd (st : DUL) (group : List Nat) : Except String DUL :=
  match dulAddGo st.groupId group (assocSet st.groups st.groupId group) st.pkMap group with
  | .error e => .error e
  | .ok (g, m) => .ok ⟨st.groupId + 1, g, m⟩

/-- Embeds DisjointUnionList.from_items (experimental.py:96-101). -/
def dulFromItems (gs : List (List Nat)) : Except String DUL :=
  gs.foldlM dulAdd dulEmpty

/-- The partition a DisjointUnionList represents: its stored groups as sets
(iteration over group_id_to_pks.values()). -/
def dulPartition (st : DUL) : List (List Nat) :=
  st.groups.map (·.2)

/-! ## Theorems -/

theorem diffChanges_noop {fs : List (String × String)} :
    ∀ {changes : List (String × String)},
      (∀ cv ∈ changes, lookupField fs cv.1 = some cv.2) →
      diffChanges fs changes = .ok []
  | [], _ => rfl
  | cv :: rest, h => by
    have h1 : lookupField fs cv.1 = some cv.2 := h cv (List.mem_cons_self _ _)
    have ih := diffChanges_noop (fun cv' hm => h cv' (List.mem_cons_of_mem _ hm))
    simp [diffChanges, h1, ih]

theorem makeVersionedPayload_noop {r : Row} {changes : List (String × String)}
    (h : ∀ cv ∈ changes, lookupField r.fields cv.1 = some cv.2) :
    makeVersionedPayload r changes = .ok none := by
  simp [makeVersionedPayload, diffChanges_noop h]

theorem qsCollectLogs_noop {t : String} {changes : List (String × String)} :
    ∀ {rows : List Row},
      (∀ r ∈ rows, ∀ cv ∈ changes, lookupField r.fields cv.1 = some cv.2) →
      qsCollectLogs t changes rows = .ok []
  | [], _ => rfl
  | r :: rest, h => by
    have h1 := makeVersionedPayload_noop (h r (List.mem_cons_self _ _))
    have ih := @qsCollectLogs_noop t changes rest
      (fun r' hm => h r' (List.mem_cons_of_mem _ hm))
    simp [qsCollectLogs, h1, ih]

/-- Claim C1 (amended): if every requested change serializes equal to the
entity's current field value, then the single-entity AbstractLogModel.log_update
writes zero AuditLog rows and leaves the AuditCommand-saved state (and the row)
untouched, and the queryset LogQuerySet.log_update also writes zero AuditLog
rows — but it unconditionally persists the AuditCommand, because the source
calls audit_command.save_once() before computing any payload. -/
theorem noop_update_writes_no_audit_rows (st : AuditState) (t : String)
    (rows : List Row) (changes : List (String × String))
    (h : ∀ r ∈ rows, ∀ cv ∈ changes, lookupField r.fields cv.1 = some cv.2) :
    (∀ r ∈ rows, logUpdate st t r changes = .ok (st, r)) ∧
    (∃ rows2, qsLogUpdate st t rows changes =
      .ok ({ commandSaved := true, logs := st.logs }, rows2)) := by
  constructor
  · intro r hr
    simp [logUpdate, makeVersionedPayload_noop (h r hr)]
  · exact ⟨rows.map (applyChanges · changes), by simp [qsLogUpdate, qsCollectLogs_noop h]⟩

/-- Claim C1 witness: the amended statement at a concrete no-op batch. -/
theorem noop_update_writes_no_audit_rows_witness :
    (∀ r ∈ [(⟨1, [("given_name", "Bob")]⟩ : Row)],
      logUpdate ⟨false, []⟩ "author" r [("given_name", "Bob")] = .ok (⟨false, []⟩, r)) ∧
    (∃ rows2, qsLogUpdate ⟨false, []⟩ "author" [⟨1, [("given_name", "Bob")]⟩]
        [("given_name", "Bob")] = .ok ({ commandSaved := true, logs := [] }, rows2)) :=
  noop_update_writes_no_audit_rows ⟨false, []⟩ "author"
    [⟨1, [("given_name", "Bob")]⟩] [("given_name", "Bob")] (by decide)

/-- Claim C1 counterexample: a no-op batch update (the change equals the
stored serialized value) writes zero AuditLog rows, yet the AuditCommand goes
from unsaved to saved — refuting "the owning AuditCommand is never persisted
... for the queryset batch update". -/
theorem noop_batch_update_still_saves_command :
    qsLogUpdate ⟨false, []⟩ "author" [⟨1, [("given_name", "Bob")]⟩]
        [("given_name", "Bob")] =
      .ok (⟨true, []⟩, [⟨1, [("given_name", "Bob")]⟩]) := rfl

/-- Claim C2: merging Tags with a non-colliding PublicationTags row on a
discarded tag crashes with FieldDoesNotExist instead of re-pointing the row:
_move_publication_tags passes sponsor_id=kept_pk to log_update on a
PublicationTags row (models.py:1549), and PublicationTags has no sponsor
field.  Here tag 2 is discarded in favour of tag 1 and its row for
publication 10 has no collision, so the claim requires it to be re-pointed
at tag 1; the code errors instead. -/
theorem tag_merge_update_hits_missing_field :
    movePublicationTags 1 [2] [⟨1, 10, 2⟩] =
      .error "FieldDoesNotExist: PublicationTags has no field named sponsor_id" := rfl

/-- Claim C4: the grouper is not order-independent.  Feeding the groups
[1,2], [2,3], [1,4] in this order raises KeyError — absorbing [1,2] into
[2,3] never re-points pk 1 from the removed group id 0, so add([1,4]) pops a
group id that no longer exists — while the permutation [2,3], [1,2], [1,4]
succeeds and yields the expected single component. -/
theorem disjoint_union_add_order_dependent :
    dulFromItems [[1, 2], [2, 3], [1, 4]] = .error "KeyError" ∧
    (dulFromItems [[2, 3], [1, 2], [1, 4]]).map dulPartition = .ok [[1, 4, 2, 3]] :=
  ⟨rfl, rfl⟩

/-- Claim C5: when a record matching the lookup keys exists,
log_get_or_create performs no update at all: the defaults (given_name Ralph)
are computed into a merged dict that is never used, the UPDATE payload is
diffed from the lookup keys against themselves (always empty), so the stored
row keeps given_name Bob, no AuditLog row is written and the AuditCommand is
not persisted. -/
theorem log_get_or_create_existing_never_updates :
    logGetOrCreate ⟨false, []⟩ "author"
        [⟨1, [("given_name", "Bob"), ("orcid", "1234")]⟩] 2
        [("orcid", "1234")] [("given_name", "Ralph")] =
      .ok (⟨false, []⟩, [⟨1, [("given_name", "Bob"), ("orcid", "1234")]⟩],
           ⟨1, [("given_name", "Bob"), ("orcid", "1234")]⟩, false) := rfl

/-- Claim C8: container 2 matches container 1 exactly on e-ISSN (both
non-empty, names differ, ISSNs NULL), which the spec rule reports as a
duplicate, but Container.duplicates returns nothing: its e-ISSN branch
compares the candidate's eissn against self.issn (models.py:595). -/
theorem container_eissn_match_not_detected :
    containerDuplicates ⟨1, none, some "1536-0040", "Journal A"⟩
        [⟨1, none, some "1536-0040", "Journal A"⟩,
         ⟨2, none, some "1536-0040", "Journal B"⟩] = [] ∧
    specContainerIsDuplicate ⟨1, none, some "1536-0040", "Journal A"⟩
        ⟨2, none, some "1536-0040", "Journal B"⟩ :=
  ⟨rfl, by decide, Or.inr (Or.inl ⟨"1536-0040", rfl, rfl⟩)⟩

/-- Claim C7: executing a SuggestedMerge whose date_applied is already set, or
whose duplicates list has fewer than two ids, fails one of the two assertions
at the top of SuggestedMerge.merge (models.py:1563-1564) — before the
transaction opens and before any entity, association or audit write — so the
merge raises and no database state is produced. -/
theorem merge_rejected_when_applied_or_too_few (sm : SuggestedMergeRec)
    (db : AuthorDB) (h : sm.dateApplied.isSome ∨ sm.duplicates.length < 2) :
    ∃ e, suggestedMergeRun sm db = .error e := by
  unfold suggestedMergeRun
  rcases h with h | h
  · rw [if_pos h]
    exact ⟨_, rfl⟩
  · by_cases h2 : sm.dateApplied.isSome
    · rw [if_pos h2]
      exact ⟨_, rfl⟩
    · rw [if_neg h2, if_pos (by omega)]
      exact ⟨_, rfl⟩

/-- Claim C7 witness: an already-applied merge and a single-id merge are both
rejected on a concrete database. -/
theorem merge_rejected_when_applied_or_too_few_witness :
    (∃ e, suggestedMergeRun ⟨[5, 9], ⟨none, none, none, none⟩, some 7⟩ ⟨[], []⟩ =
      .error e) ∧
    (∃ e, suggestedMergeRun ⟨[5], ⟨none, none, none, none⟩, none⟩ ⟨[], []⟩ =
      .error e) :=
  ⟨merge_rejected_when_applied_or_too_few _ _ (Or.inl rfl),
   merge_rejected_when_applied_or_too_few _ _ (Or.inr (by decide))⟩

/-- Claim C9: any SuggestedMerge the automatic author coalescer produces has
its duplicates sorted ascending (coalesce builds them with sorted(pks)), hence
kept_pk — the head of duplicates — is a lower bound of the whole list: the
duplicates[0] convention of SuggestedMerge.kept_pk and the min(duplicates)
convention of SuggestedMerge.merge_authors pick the same id. -/
theorem coalesce_keeps_sorted_min (authors : List AuthorRec)
    (sm : SuggestedMergeRec) (h : coalesce authors = .ok sm) :
    List.Sorted (· ≤ ·) sm.duplicates ∧
    ∀ k, sm.keptPk = some k → ∀ x ∈ sm.duplicates, k ≤ x := by
  unfold coalesce at h
  cases hc : calculateChanges authors with
  | error e => rw [hc] at h; cases h
  | ok ch =>
    rw [hc] at h
    cases h
    refine ⟨List.sorted_insertionSort _ _, ?_⟩
    intro k hk x hx
    unfold SuggestedMergeRec.keptPk at hk
    have hs := List.sorted_insertionSort (α := Nat) (· ≤ ·) (authors.map (·.id))
    cases hl : List.insertionSort (· ≤ ·) (authors.map (·.id)) with
    | nil => rw [hl] at hk; cases hk
    | cons a t =>
      rw [hl] at hk hx
      simp only [List.head?] at hk
      cases hk
      rw [hl] at hs
      rcases List.mem_cons.mp hx with h1 | h1
      · exact h1 ▸ le_refl _
      · exact List.rel_of_sorted_cons hs x h1

/-- Claim C9 witness: the coalescer output for authors with pks 9 and 5 has
duplicates [5, 9], sorted with head 5 a lower bound. -/
theorem coalesce_keeps_sorted_min_witness :
    List.Sorted (· ≤ ·)
      (SuggestedMergeRec.duplicates
        ⟨[5, 9], ⟨some "Smithe", some "Bobby", some "0001", none⟩, none⟩) ∧
    ∀ k, SuggestedMergeRec.keptPk
        ⟨[5, 9], ⟨some "Smithe", some "Bobby", some "0001", none⟩, none⟩ = some k →
      ∀ x ∈ SuggestedMergeRec.duplicates
        ⟨[5, 9], ⟨some "Smithe", some "Bobby", some "0001", none⟩, none⟩, k ≤ x :=
  coalesce_keeps_sorted_min
    [⟨9, "Bob", "Smith", some "0001", ""⟩, ⟨5, "Bobby", "Smithe", none, ""⟩]
    ⟨[5, 9], ⟨some "Smithe", some "Bobby", some "0001", none⟩, none⟩ rfl

theorem all_eq_of_dedup_length_le_one {l : List String}
    (h : l.dedup.length ≤ 1) : ∀ a ∈ l, ∀ b ∈ l, a = b := by
  intro a ha b hb
  have ha2 : a ∈ l.dedup := List.mem_dedup.mpr ha
  have hb2 : b ∈ l.dedup := List.mem_dedup.mpr hb
  match hl : l.dedup with
  | [] => rw [hl] at ha2; cases ha2
  | [x] =>
    rw [hl] at ha2 hb2
    simp only [List.mem_singleton] at ha2 hb2
    rw [ha2, hb2]
  | x :: y :: t => rw [hl] at h; simp at h

theorem dedup_length_le_one_of_all_eq {l : List String}
    (h : ∀ a ∈ l, ∀ b ∈ l, a = b) : l.dedup.length ≤ 1 := by
  match hl : l.dedup with
  | [] => simp
  | [x] => simp
  | x :: y :: t =>
    have hx : x ∈ l := List.mem_dedup.mp (hl ▸ List.mem_cons_self _ _)
    have hy : y ∈ l :=
      List.mem_dedup.mp (hl ▸ List.mem_cons_of_mem _ (List.mem_cons_self _ _))
    have hnd := List.nodup_dedup l
    rw [hl] at hnd
    have hne : x ≠ y := by
      intro hxy
      exact (List.nodup_cons.mp hnd).1 (hxy ▸ List.mem_cons_self _ _)
    exact absurd (h x hx y hy) hne

/-- Claim C6: for a nonempty author group, the coalescer's calculate_changes
raises (a MergeError from the orcid aggregation — the coalescer performs no
database writes, so nothing is modified) exactly when two members carry
different non-None ORCID values; a group agreeing on at most one ORCID value
always coalesces without raising. -/
theorem coalescer_orcid_conflict_iff (authors : List AuthorRec)
    (h : authors ≠ []) :
    (∃ e, calculateChanges authors = .error e) ↔
    (∃ x ∈ authors, ∃ y ∈ authors, ∃ ox oy,
      x.orcid = some ox ∧ y.orcid = some oy ∧ ox ≠ oy) := by
  have hiff : 1 < ((authors.filterMap (·.orcid)).dedup).length ↔
      (∃ x ∈ authors, ∃ y ∈ authors, ∃ ox oy,
        x.orcid = some ox ∧ y.orcid = some oy ∧ ox ≠ oy) := by
    constructor
    · intro hlen
      by_contra hno
      push_neg at hno
      have hall : ∀ a ∈ authors.filterMap (·.orcid),
          ∀ b ∈ authors.filterMap (·.orcid), a = b := by
        intro a ha b hb
        rcases List.mem_filterMap.mp ha with ⟨x, hx, hxa⟩
        rcases List.mem_filterMap.mp hb with ⟨y, hy, hyb⟩
        by_contra hab
        exact hab (hno x hx y hy a b hxa hyb)
      exact absurd (dedup_length_le_one_of_all_eq hall) (by omega)
    · rintro ⟨x, hx, y, hy, ox, oy, hox, hoy, hne⟩
      have hmx : ox ∈ authors.filterMap (·.orcid) :=
        List.mem_filterMap.mpr ⟨x, hx, hox⟩
      have hmy : oy ∈ authors.filterMap (·.orcid) :=
        List.mem_filterMap.mpr ⟨y, hy, hoy⟩
      by_contra hlen
      push_neg at hlen
      exact hne (all_eq_of_dedup_length_le_one (by omega) ox hmx oy hmy)
  constructor
  · rintro ⟨e, he⟩
    unfold calculateChanges at he
    cases ho : orcidAgg authors with
    | error e2 =>
      unfold orcidAgg at ho
      by_cases hlen : 1 < ((authors.filterMap (·.orcid)).dedup).length
      · exact hiff.mp hlen
      · rw [if_neg (by omega)] at ho
        cases ho
    | ok oc =>
      rw [ho] at he
      cases authors with
      | nil => exact absurd rfl h
      | cons a rest => simp [emailAgg] at he
  · intro hr
    have hlen := hiff.mpr hr
    refine ⟨"MergeError: More than ORCiD in a merge group", ?_⟩
    unfold calculateChanges orcidAgg
    rw [if_pos (by omega)]

/-- Claim C6 witness: a two-author group with ORCIDs 0001 and 0002 raises,
applied through the iff at a concrete input. -/
theorem coalescer_orcid_conflict_iff_witness :
    ∃ e, calculateChanges
      [⟨5, "Bob", "Smith", some "0001", ""⟩,
       ⟨9, "Bobby", "Smithe", some "0002", ""⟩] = .error e :=
  (coalescer_orcid_conflict_iff
      [⟨5, "Bob", "Smith", some "0001", ""⟩,
       ⟨9, "Bobby", "Smithe", some "0002", ""⟩] (by decide)).mpr
    ⟨⟨5, "Bob", "Smith", some "0001", ""⟩, by decide,
     ⟨9, "Bobby", "Smithe", some "0002", ""⟩, by decide,
     "0001", "0002", rfl, rfl, by decide⟩


theorem foldl_email_last (rest : List AuthorRec) :
    ∀ acc : Option String,
      rest.foldl (fun acc x => if x.email ≠ "" then some x.email else acc) acc =
      ((rest.filter (fun b => b.email != "")).getLast?).elim acc (fun b => some b.email) := by
  induction rest with
  | nil => intro acc; rfl
  | cons x xs ih =>
    intro acc
    rw [List.foldl_cons, ih]
    by_cases hx : x.email = ""
    · simp [List.filter_cons, hx]
    · have hxb : (x.email != "") = true := by simpa using hx
      rw [if_pos hx, List.filter_cons, if_pos hxb]
      cases hfe : xs.filter (fun b => b.email != "") with
      | nil => rw [List.getLast?_singleton]; rfl
      | cons c l2 =>
        rw [List.getLast?_cons_cons]
        cases hgl : (c :: l2).getLast? with
        | none => exact absurd (List.getLast?_eq_none_iff.mp hgl) (by simp)
        | some b => rfl

/-- Claim C10: the coalescer's change set contains an email only when the
first author of the group (list order) has a blank email and some later
author has a non-blank one; the chosen value is then the email of the last
such author, and a non-blank first email suppresses the field entirely. -/
theorem coalescer_email_rule (a : AuthorRec) (rest : List AuthorRec)
    (ch : AuthorChanges) (h : calculateChanges (a :: rest) = .ok ch) :
    (a.email ≠ "" → ch.email = none) ∧
    (a.email = "" →
      ch.email = ((rest.filter (fun b => b.email != "")).getLast?).map (·.email)) ∧
    (ch.email.isSome ↔ (a.email = "" ∧ ∃ b ∈ rest, b.email ≠ "")) := by
  have hem : ch.email = (if a.email ≠ "" then none
      else rest.foldl (fun acc x => if x.email ≠ "" then some x.email else acc) none) := by
    unfold calculateChanges at h
    cases ho : orcidAgg (a :: rest) with
    | error e => rw [ho] at h; cases h
    | ok oc =>
      rw [ho] at h
      simp only [emailAgg] at h
      cases h
      rfl
  refine ⟨?_, ?_, ?_⟩
  · intro hne
    rw [hem, if_pos hne]
  · intro he
    rw [hem, if_neg (by simp [he]), foldl_email_last]
    cases hl : (rest.filter (fun b => b.email != "")).getLast? with
    | some b => rfl
    | none => rfl
  · rw [hem]
    by_cases he : a.email = ""
    · rw [if_neg (by simp [he]), foldl_email_last]
      cases hl : (rest.filter (fun b => b.email != "")).getLast? with
      | some b =>
        simp only [Option.elim, Option.isSome_some, true_iff]
        refine ⟨he, ?_⟩
        have hmem : b ∈ (rest.filter (fun b => b.email != "")).getLast? :=
          Option.mem_def.mpr hl
        rcases List.mem_getLast?_eq_getLast hmem with ⟨hne2, hbe⟩
        have hb : b ∈ rest.filter (fun b => b.email != "") :=
          hbe ▸ List.getLast_mem hne2
        rcases List.mem_filter.mp hb with ⟨hbm, hbp⟩
        exact ⟨b, hbm, by simpa using hbp⟩
      | none =>
        have hfe : rest.filter (fun b => b.email != "") = [] :=
          List.getLast?_eq_none_iff.mp hl
        simp only [Option.elim]
        constructor
        · intro hfalse
          simp at hfalse
        · rintro ⟨-, b, hbm, hbe⟩
          have hb2 := List.filter_eq_nil_iff.mp hfe b hbm
          simp at hb2
          exact absurd hb2 hbe
    · rw [if_pos he]
      simp [he]

/-- Claim C10 witness: in a group whose first author has a blank email and two
later authors have emails, the patch carries the last one. -/
theorem coalescer_email_rule_witness :
    ((⟨1, "", "", none, ""⟩ : AuthorRec).email ≠ "" →
      (⟨none, none, none, some "w@v.u"⟩ : AuthorChanges).email = none) ∧
    ((⟨1, "", "", none, ""⟩ : AuthorRec).email = "" →
      (⟨none, none, none, some "w@v.u"⟩ : AuthorChanges).email =
        (([⟨2, "", "", none, "x@y.z"⟩, ⟨3, "", "", none, "w@v.u"⟩] :
            List AuthorRec).filter (fun b => b.email != "")).getLast?.map (·.email)) ∧
    ((⟨none, none, none, some "w@v.u"⟩ : AuthorChanges).email.isSome ↔
      ((⟨1, "", "", none, ""⟩ : AuthorRec).email = "" ∧
        ∃ b ∈ ([⟨2, "", "", none, "x@y.z"⟩, ⟨3, "", "", none, "w@v.u"⟩] :
            List AuthorRec), b.email ≠ "")) :=
  coalescer_email_rule ⟨1, "", "", none, ""⟩
    [⟨2, "", "", none, "x@y.z"⟩, ⟨3, "", "", none, "w@v.u"⟩]
    ⟨none, none, none, some "w@v.u"⟩ rfl

theorem paMoveFun_cases {kept : Nat} {discarded kp : List Nat} {r s : PubAuthor}
    (h : paMoveFun kept discarded kp r = some s) :
    (r.authorId ∈ discarded ∧ r.publicationId ∉ kp ∧ s = { r with authorId := kept }) ∨
    (r.authorId ∉ discarded ∧ s = r) := by
  unfold paMoveFun at h
  split_ifs at h with h1 h2
  · exact Or.inl ⟨h1, h2, (Option.some.inj h).symm⟩
  · exact Or.inr ⟨h1, (Option.some.inj h).symm⟩

theorem paMoveFun_collision {kept : Nat} {discarded kp : List Nat} {r : PubAuthor}
    (h1 : r.authorId ∈ discarded) (h2 : r.publicationId ∈ kp) :
    paMoveFun kept discarded kp r = none := by
  unfold paMoveFun
  rw [if_pos h1, if_pos h2]

theorem paMoveFun_update {kept : Nat} {discarded kp : List Nat} {r : PubAuthor}
    (h1 : r.authorId ∈ discarded) (h2 : r.publicationId ∉ kp) :
    paMoveFun kept discarded kp r = some { r with authorId := kept } := by
  unfold paMoveFun
  rw [if_pos h1, if_neg h2]

theorem paMoveFun_some_id {kept : Nat} {discarded kp : List Nat} {r s : PubAuthor}
    (h : paMoveFun kept discarded kp r = some s) : s.id = r.id := by
  rcases paMoveFun_cases h with ⟨-, -, hs⟩ | ⟨-, hs⟩ <;> rw [hs]

theorem mem_keptPublicationIds {kept : Nat} {rows : List PubAuthor} {t : PubAuthor}
    (ht : t ∈ rows) (h : t.authorId = kept) :
    t.publicationId ∈ keptPublicationIds kept rows :=
  List.mem_map_of_mem _ (List.mem_filter.mpr ⟨ht, by simp [h]⟩)

/-- Claim C3: merging the Author group [5, 9] where both authors carry orcid
"0001" (so the coalesced patch orcid, if present, is "0001"): afterwards the
kept id is min(duplicates) = 5 — author 9 is gone and nothing references it —
author 5 still has orcid "0001", every PublicationAuthors row of author 9 was
re-pointed at author 5 unless author 5 already had a row for that publication
(then the row was deleted), and the (publication, author) uniqueness invariant
still holds. -/
theorem author_merge_5_9_correct
    (db : AuthorDB) (content : AuthorChanges) (post : AuthorDB) (a5 : AuthorRec)
    (h5 : a5 ∈ db.authors) (h5id : a5.id = 5) (h5orcid : a5.orcid = some "0001")
    (hco : content.orcid = some "0001" ∨ content.orcid = none)
    (hids : (db.pubAuthors.map (·.id)).Nodup)
    (huniq : db.pubAuthors.Pairwise
      (fun r s => ¬(r.publicationId = s.publicationId ∧ r.authorId = s.authorId)))
    (hrun : mergeAuthorsDb [5, 9] content db = .ok post) :
    (∀ a ∈ post.authors, a.id ≠ 9) ∧
    (∃ a ∈ post.authors, a.id = 5 ∧ a.orcid = some "0001") ∧
    (∀ r ∈ db.pubAuthors, r.authorId = 9 →
      (r.publicationId ∈ keptPublicationIds 5 db.pubAuthors →
        ∀ s ∈ post.pubAuthors, s.id ≠ r.id) ∧
      (r.publicationId ∉ keptPublicationIds 5 db.pubAuthors →
        ({ r with authorId := 5 } : PubAuthor) ∈ post.pubAuthors)) ∧
    (∀ s ∈ post.pubAuthors, s.authorId ≠ 9) ∧
    post.pubAuthors.Pairwise
      (fun r s => ¬(r.publicationId = s.publicationId ∧ r.authorId = s.authorId)) := by
  replace hrun :
      (match (db.authors.filter (fun (a : AuthorRec) => !(a.id ∈ ([9] : List Nat) : Bool))).find?
          (fun (a : AuthorRec) => a.id == 5) with
       | none => (Except.error "Author.DoesNotExist" : Except String AuthorDB)
       | some _ => Except.ok
          { authors := (db.authors.filter
              (fun (a : AuthorRec) => !(a.id ∈ ([9] : List Nat) : Bool))).map
                (fun (a : AuthorRec) => if a.id = 5 then applyAuthorChanges a content else a),
            pubAuthors := movePublicationAuthors 5 [9] db.pubAuthors }) = .ok post := hrun
  cases hfind : (db.authors.filter (fun (a : AuthorRec) => !(a.id ∈ ([9] : List Nat) : Bool))).find?
      (fun (a : AuthorRec) => a.id == 5) with
  | none => rw [hfind] at hrun; cases hrun
  | some a0 =>
    rw [hfind] at hrun
    cases hrun
    refine ⟨?_, ?_, ?_, ?_, ?_⟩
    · -- no author with id 9 remains
      intro a ha
      rcases List.mem_map.mp ha with ⟨b, hb, hba⟩
      rcases List.mem_filter.mp hb with ⟨-, hbp⟩
      have hb9 : b.id ≠ 9 := by simpa using hbp
      have haid : a.id = b.id := by
        rw [← hba]
        by_cases hb5 : b.id = 5
        · rw [if_pos hb5]; rfl
        · rw [if_neg hb5]
      rw [haid]
      exact hb9
    · -- the kept author survives with orcid "0001"
      have hf : a5 ∈ db.authors.filter (fun a => !(a.id ∈ ([9] : List Nat) : Bool)) :=
        List.mem_filter.mpr ⟨h5, by simp [h5id]⟩
      have hmem := List.mem_map_of_mem
        (fun a => if a.id = 5 then applyAuthorChanges a content else a) hf
      simp only [if_pos h5id] at hmem
      refine ⟨applyAuthorChanges a5 content, hmem, h5id, ?_⟩
      rcases hco with hc | hc <;> simp [applyAuthorChanges, hc, h5orcid]
    · -- each row of discarded author 9 is deleted on collision, else re-pointed
      intro r hr hr9
      constructor
      · intro hcol s hs
        intro hsr
        rcases List.mem_filterMap.mp hs with ⟨r2, hr2, hf2⟩
        have hid2 : s.id = r2.id := paMoveFun_some_id hf2
        have hr2r : r2 = r :=
          List.inj_on_of_nodup_map hids hr2 hr (by rw [← hid2, hsr])
        rw [hr2r, paMoveFun_collision (by simp [hr9]) hcol] at hf2
        cases hf2
      · intro hncol
        exact List.mem_filterMap.mpr
          ⟨r, hr, paMoveFun_update (by simp [hr9]) hncol⟩
    · -- nothing references author 9 any more
      intro s hs
      rcases List.mem_filterMap.mp hs with ⟨r2, hr2, hf2⟩
      rcases paMoveFun_cases hf2 with ⟨-, -, hseq⟩ | ⟨hnd, hseq⟩
      · rw [hseq]
        simp
      · rw [hseq]
        simpa using hnd
    · -- (publication, author) uniqueness is preserved
      apply List.pairwise_filterMap.mpr
      refine List.Pairwise.imp_of_mem ?_ huniq
      intro a b ha hb hR x hx y hy
      rintro ⟨hpub, hauth⟩
      rcases paMoveFun_cases hx with ⟨ha9, hanc, hxe⟩ | ⟨han, hxe⟩ <;>
        rcases paMoveFun_cases hy with ⟨hb9, hbnc, hye⟩ | ⟨hbn, hye⟩
      · -- both re-pointed: originals collided on (publication, 9)
        rw [hxe] at hpub hauth
        rw [hye] at hpub hauth
        exact hR ⟨hpub, by
          simp only [List.mem_singleton] at ha9 hb9
          rw [ha9, hb9]⟩
      · -- a re-pointed to 5, b untouched: b already was a row of author 5
        rw [hxe] at hpub hauth
        rw [hye] at hpub hauth
        have hb5 : b.authorId = 5 := hauth.symm
        have : a.publicationId ∈ keptPublicationIds 5 db.pubAuthors :=
          hpub ▸ mem_keptPublicationIds hb hb5
        exact hanc this
      · -- symmetric case
        rw [hxe] at hpub hauth
        rw [hye] at hpub hauth
        have ha5 : a.authorId = 5 := hauth
        have : b.publicationId ∈ keptPublicationIds 5 db.pubAuthors :=
          hpub ▸ mem_keptPublicationIds ha ha5
        exact hbnc this
      · -- both untouched
        rw [hxe] at hpub hauth
        rw [hye] at hpub hauth
        exact hR ⟨hpub, hauth⟩

/-- Claim C3 witness: authors 5 and 9 both with orcid "0001", publication 10
linked to both and publication 11 only to author 9; after the merge the
colliding row 2 is gone, row 3 points at author 5, and author 9 is deleted. -/
theorem author_merge_5_9_correct_witness :
    (∀ a ∈ (AuthorDB.mk [⟨5, "Bob", "Smith", some "0001", ""⟩]
        [⟨1, 10, 5⟩, ⟨3, 11, 5⟩]).authors, a.id ≠ 9) ∧
    (∃ a ∈ (AuthorDB.mk [⟨5, "Bob", "Smith", some "0001", ""⟩]
        [⟨1, 10, 5⟩, ⟨3, 11, 5⟩]).authors, a.id = 5 ∧ a.orcid = some "0001") ∧
    (∀ r ∈ (AuthorDB.mk
        [⟨5, "Bob", "Smith", some "0001", ""⟩, ⟨9, "Bobby", "Smithe", some "0001", ""⟩]
        [⟨1, 10, 5⟩, ⟨2, 10, 9⟩, ⟨3, 11, 9⟩]).pubAuthors, r.authorId = 9 →
      (r.publicationId ∈ keptPublicationIds 5 (AuthorDB.mk
          [⟨5, "Bob", "Smith", some "0001", ""⟩, ⟨9, "Bobby", "Smithe", some "0001", ""⟩]
          [⟨1, 10, 5⟩, ⟨2, 10, 9⟩, ⟨3, 11, 9⟩]).pubAuthors →
        ∀ s ∈ (AuthorDB.mk [⟨5, "Bob", "Smith", some "0001", ""⟩]
            [⟨1, 10, 5⟩, ⟨3, 11, 5⟩]).pubAuthors, s.id ≠ r.id) ∧
      (r.publicationId ∉ keptPublicationIds 5 (AuthorDB.mk
          [⟨5, "Bob", "Smith", some "0001", ""⟩, ⟨9, "Bobby", "Smithe", some "0001", ""⟩]
          [⟨1, 10, 5⟩, ⟨2, 10, 9⟩, ⟨3, 11, 9⟩]).pubAuthors →
        ({ r with authorId := 5 } : PubAuthor) ∈
          (AuthorDB.mk [⟨5, "Bob", "Smith", some "0001", ""⟩]
            [⟨1, 10, 5⟩, ⟨3, 11, 5⟩]).pubAuthors)) ∧
    (∀ s ∈ (AuthorDB.mk [⟨5, "Bob", "Smith", some "0001", ""⟩]
        [⟨1, 10, 5⟩, ⟨3, 11, 5⟩]).pubAuthors, s.authorId ≠ 9) ∧
    (AuthorDB.mk [⟨5, "Bob", "Smith", some "0001", ""⟩]
        [⟨1, 10, 5⟩, ⟨3, 11, 5⟩]).pubAuthors.Pairwise
      (fun r s => ¬(r.publicationId = s.publicationId ∧ r.authorId = s.authorId)) :=
  author_merge_5_9_correct
    ⟨[⟨5, "Bob", "Smith", some "0001", ""⟩, ⟨9, "Bobby", "Smithe", some "0001", ""⟩],
     [⟨1, 10, 5⟩, ⟨2, 10, 9⟩, ⟨3, 11, 9⟩]⟩
    ⟨none, none, some "0001", none⟩
    ⟨[⟨5, "Bob", "Smith", some "0001", ""⟩], [⟨1, 10, 5⟩, ⟨3, 11, 5⟩]⟩
    ⟨5, "Bob", "Smith", some "0001", ""⟩
    (by decide) rfl rfl (Or.inl rfl) (by decide) (by decide) rfl
